import Mathlib

/-!
Shallow embedding of the bulk image-branding pipeline:
- `src/services/imageProcessor.ts`: `removeLogoBackground`, `processImage`
- the two `findBestCorner` variants (`src/unnamed/part_000`, `src/unnamed/part_001`)
- the batch orchestrator `startProcessing` and the logo-upload handlers
  (`src/App.tsx`, `src/unnamed/part_002`).

Bytes (JS `File`/`Blob` contents) are modelled as opaque strings. Pixel
geometry is exact rational arithmetic. External effects (the Gemini call,
`JSON.parse`, image decoding, `canvas.toBlob`, `zip.generateAsync`) are
supplied as explicit outcome parameters, and the embedded functions
reproduce the source's control flow over those outcomes.
-/

namespace Branding

/-- Opaque byte content of a JS File/Blob. -/
abbrev Blob := String

/-- Decoded bitmap handed to the canvas (an `HTMLImageElement`): natural
dimensions plus the source bytes it was decoded from. -/
structure Image where
  naturalWidth : ℚ
  naturalHeight : ℚ
  content : Blob
deriving DecidableEq

/-- Immutable per-batch configuration (src/types `BrandingConfig`). -/
structure BrandingConfig where
  watermarkOpacity : ℚ
  watermarkScale : ℚ
  logoScale : ℚ
  logoPadding : ℚ
deriving DecidableEq

/-- One `ctx.drawImage(img, x, y, w, h)` call, recorded with the
`globalAlpha` in force when it was issued. -/
structure DrawOp where
  content : Blob
  x : ℚ
  y : ℚ
  w : ℚ
  h : ℚ
  alpha : ℚ
deriving DecidableEq

/-- The part of the 2D canvas context state that `processImage` touches:
the current `globalAlpha`, the save/restore stack (only alpha is ever
changed between save and restore), and the draw calls issued so far. -/
structure Ctx where
  globalAlpha : ℚ
  alphaStack : List ℚ
  ops : List DrawOp
deriving DecidableEq

/-- Fresh 2D context: `globalAlpha` starts at 1.0, nothing drawn. -/
def Ctx.init : Ctx := ⟨1, [], []⟩

/-- Model of `ctx.save()` (restricted to the alpha component). -/
def Ctx.save (c : Ctx) : Ctx :=
  { c with alphaStack := c.globalAlpha :: c.alphaStack }

/-- Model of `ctx.restore()`. -/
def Ctx.restore (c : Ctx) : Ctx :=
  match c.alphaStack with
  | [] => c
  | a :: rest => { c with globalAlpha := a, alphaStack := rest }

/-- Model of `ctx.globalAlpha = a`. -/
def Ctx.setGlobalAlpha (c : Ctx) (a : ℚ) : Ctx := { c with globalAlpha := a }

/-- Model of `ctx.drawImage(img, x, y, w, h)`. -/
def Ctx.drawImage (c : Ctx) (content : Blob) (x y w h : ℚ) : Ctx :=
  { c with ops := c.ops ++ [⟨content, x, y, w, h, c.globalAlpha⟩] }

/-- Environment effects of one `processImage` call: whether
`canvas.getContext('2d')` returns a context, and the blob (if any) that
`canvas.toBlob` delivers to its callback. -/
structure CanvasEnv where
  ctxOk : Bool
  toBlob : Option Blob
deriving DecidableEq

/-- Outcome of `removeBackground(file, ...)` from @imgly/background-removal:
either a result blob or a thrown error. -/
abbrev RemovalOutcome := Except String Blob

/-- Embedding of `removeLogoBackground` (src/services/imageProcessor.ts
lines 5-17): return the routine's blob on success; on any thrown error,
log and return the original file unchanged. The function never rethrows. -/
def removeLogoBackground (file : Blob) (removal : RemovalOutcome) : Blob :=
  match removal with
  | .ok resultBlob => resultBlob
  | .error _ => file

/-- Corner-mark top-left corner for `processImage`'s switch statement
(src/services/imageProcessor.ts lines 59-82). The TS `Corner` value is a
string; the `default` branch makes any unrecognized value behave as
top-right. -/
def cornerXY (canvasW canvasH cornerLogoWidth cornerLogoHeight pad : ℚ)
    (bestCorner : String) : ℚ × ℚ :=
  if bestCorner = "top-left" then (pad, pad)
  else if bestCorner = "top-right" then (canvasW - cornerLogoWidth - pad, pad)
  else if bestCorner = "bottom-left" then (pad, canvasH - cornerLogoHeight - pad)
  else if bestCorner = "bottom-right" then
    (canvasW - cornerLogoWidth - pad, canvasH - cornerLogoHeight - pad)
  else (canvasW - cornerLogoWidth - pad, pad)

/-- Embedding of `processImage` (src/services/imageProcessor.ts lines
19-98). Returns the recorded draw calls and the exported blob, or the
thrown error. Control flow follows the source exactly: acquire context
(throw if null); canvas sized to the background's natural dimensions;
draw background; save, set `globalAlpha` to `watermarkOpacity`, draw the
centered watermark at forced 1.1 width:height ratio, restore; draw the
corner mark; export via `toBlob` (reject if it yields no blob). -/
def processImage (backgroundImage logoImage : Image) (bestCorner : String)
    (config : BrandingConfig) (env : CanvasEnv) :
    Except String (List DrawOp × Blob) :=
  if env.ctxOk = false then .error "Could not initialize 2D context"
  else
    let canvasW := backgroundImage.naturalWidth
    let canvasH := backgroundImage.naturalHeight
    let ctx0 := Ctx.init
    let ctx1 := ctx0.drawImage backgroundImage.content 0 0 canvasW canvasH
    let wmWidth := canvasW * config.watermarkScale
    let wmHeight := wmWidth / 1.1
    let ctx2 := ctx1.save
    let ctx3 := ctx2.setGlobalAlpha config.watermarkOpacity
    let ctx4 := ctx3.drawImage logoImage.content
      ((canvasW - wmWidth) / 2) ((canvasH - wmHeight) / 2) wmWidth wmHeight
    let ctx5 := ctx4.restore
    let cornerLogoWidth := canvasW * config.logoScale
    let cornerLogoHeight := cornerLogoWidth / 1.1
    let pad := config.logoPadding
    let xy := cornerXY canvasW canvasH cornerLogoWidth cornerLogoHeight pad bestCorner
    let ctx6 := ctx5.drawImage logoImage.content xy.1 xy.2 cornerLogoWidth cornerLogoHeight
    match env.toBlob with
    | some blob => .ok (ctx6.ops, blob)
    | none => .error "Failed to export canvas to blob"

/-- Outcome of the awaited `ai.models.generateContent(...)` call.
`thrown e`: the promise rejects (service/transport error) — note that in
both source variants this await sits OUTSIDE the try/catch.
`returned text parsed`: the call resolves; `text` is `response.text`
(`none` models `undefined`), and `parsed` is the outcome `JSON.parse`
produces on that text — a thrown error, or an object whose `corner` field
is the given optional string (`none` models an absent field). -/
inductive GenResult where
  | thrown (e : String)
  | returned (text : Option String) (parsed : Except String (Option String))

/-- Embedding of `findBestCorner` from src/unnamed/part_000 (lines 5-55).
The `generateContent` await is outside the try block, so a rejection
propagates. Inside the try: an empty/undefined `response.text` throws and
is caught (fallback top-right); a `JSON.parse` failure is caught (fallback
top-right); a parsed `corner` equal to top-left or top-right is returned,
any other value (including an absent field) yields top-right. -/
def findBestCornerV0 (r : GenResult) : Except String String :=
  match r with
  | .thrown e => .error e
  | .returned text parsed =>
    match text with
    | none => .ok "top-right"
    | some t =>
      if t = "" then .ok "top-right"
      else
        match parsed with
        | .error _ => .ok "top-right"
        | .ok corner =>
          match corner with
          | some c =>
            if c = "top-left" ∨ c = "top-right" then .ok c else .ok "top-right"
          | none => .ok "top-right"

/-- Embedding of `findBestCorner` from src/unnamed/part_001 (lines 4-52).
A missing (or empty, JS-falsy) `process.env.API_KEY` throws before any
request. The `generateContent` await is outside the try block, so a
rejection propagates. Inside the try, `JSON.parse(response.text)` on an
`undefined` text deterministically throws (caught → top-right); a parse
failure is caught (→ top-right); on a successful parse the raw `corner`
field is returned UNCHECKED (`data.corner as Corner`), so the result may
be any string or `undefined` (modelled as `Option String`). -/
def findBestCornerV1 (apiKey : Option String) (r : GenResult) :
    Except String (Option String) :=
  if apiKey = none ∨ apiKey = some "" then
    .error "API Key is missing. Please ensure it is configured."
  else
    match r with
    | .thrown e => .error e
    | .returned text parsed =>
      match text with
      | none => .ok (some "top-right")
      | some _ =>
        match parsed with
        | .error _ => .ok (some "top-right")
        | .ok corner => .ok corner

/-- Mutable `ProcessingState` from src/types, published to the UI. -/
structure ProcessingState where
  isProcessing : Bool
  total : Nat
  current : Nat
  status : String
deriving DecidableEq

/-- The component state of the App that the orchestrator reads/writes. -/
structure AppState where
  logo : Option Blob
  products : List Blob
  processing : ProcessingState
  zipBlob : Option Blob
  error : Option String
deriving DecidableEq

/-- Environment effects of one `startProcessing` run. `logoDecode` is the
outcome of `fileToImage(logo.file)` (awaited outside the try block).
`itemResult i` collapses the per-item pipeline for product `i` —
`imageToBase64`, `findBestCorner` (whose propagating errors surface
here), `fileToImage` of the product, and `processImage` — into the
encoded result blob or the first thrown error. `zipResult` is the outcome
of `zip.generateAsync`. -/
structure RunEnv where
  logoDecode : Except String Unit
  itemResult : Nat → Except String Blob
  zipResult : Except String Blob

/-- Per-item status message of src/App.tsx line 91. -/
def statusMsg (i n : Nat) : String :=
  "Processing image " ++ toString i ++ " of " ++ toString n ++ "..."

/-- The for-loop of `startProcessing` (src/App.tsx lines 86-113), started
at item index `i` with `k` items remaining out of `n` total. Each
iteration first publishes a progress snapshot with `current = i + 1`,
then runs the item pipeline: on success the result blob is appended to
the zip and the loop continues; on a thrown error the loop aborts.
Returns (published snapshots, zip entries added, first error if any). -/
def runItems (env : RunEnv) (n : Nat) :
    Nat → Nat → List ProcessingState × List Blob × Option String
  | _, 0 => ([], [], none)
  | i, k + 1 =>
    let snap : ProcessingState := ⟨true, n, i + 1, statusMsg (i + 1) n⟩
    match env.itemResult i with
    | .ok b =>
      let rest := runItems env n (i + 1) k
      (snap :: rest.1, b :: rest.2.1, rest.2.2)
    | .error e => ([snap], [], some e)

/-- Observable outcome of one `startProcessing` invocation: every
`ProcessingState` snapshot published via `setProcessing`, in order; the
entries added to the (internal) zip object via `zip.file`; the logo blob
whose decoded image was passed to every `processImage` call (none if the
run never reached compositing); and the final component state, or the
error of an unhandled rejection. -/
structure RunOutput where
  trace : List ProcessingState
  zipFiles : List Blob
  logoUsed : Option Blob
  result : Except String AppState

/-- Embedding of `startProcessing` (src/App.tsx lines 66-127; the
variant in src/unnamed/part_002 lines 83-136 has identical control flow
with different status strings). Guard: missing logo or empty product list
sets an error message and returns with no other state change. Otherwise:
publish `{isProcessing := true, total := n, current := 0}`, clear
`zipBlob` and `error`, decode the logo (a rejection here is NOT caught —
it escapes `startProcessing`), run the per-item loop inside try; on a
thrown error the catch stores the message and clears `isProcessing`,
leaving `zipBlob` unset; on loop completion publish the finalizing
snapshot, generate the zip (failure also lands in the catch), store it
and publish the terminal snapshot. -/
def startProcessing (s : AppState) (env : RunEnv) : RunOutput :=
  if s.logo = none ∨ s.products = [] then
    let sRejected :=
      { s with error := some "Please upload both a Brand Logo and at least one Product Image." }
    { trace := [], zipFiles := [], logoUsed := none, result := .ok sRejected }
  else
    let n := s.products.length
    let p0 : ProcessingState := ⟨true, n, 0, "Initializing batch..."⟩
    let s1 : AppState := { s with processing := p0, zipBlob := none, error := none }
    match env.logoDecode with
    | .error e => { trace := [p0], zipFiles := [], logoUsed := none, result := .error e }
    | .ok _ =>
      let r := runItems env n 0 n
      let tr := r.1
      let files := r.2.1
      let pl := (p0 :: tr).getLast (List.cons_ne_nil p0 tr)
      match r.2.2 with
      | some e =>
        let sFail := { s1 with error := some e, processing := { pl with isProcessing := false } }
        { trace := p0 :: tr, zipFiles := files, logoUsed := s.logo, result := .ok sFail }
      | none =>
        let pFin : ProcessingState := { pl with status := "Finalizing ZIP archive..." }
        match env.zipResult with
        | .ok finalZip =>
          let pDone : ProcessingState :=
            { pFin with isProcessing := false, status := "Completed Successfully" }
          let sDone := { s1 with zipBlob := some finalZip, processing := pDone }
          { trace := (p0 :: tr) ++ [pFin, pDone], zipFiles := files, logoUsed := s.logo,
            result := .ok sDone }
        | .error e =>
          let sZipFail := { s1 with error := some e, processing := { pFin with isProcessing := false } }
          { trace := (p0 :: tr) ++ [pFin], zipFiles := files, logoUsed := s.logo,
            result := .ok sZipFail }

/-- Embedding of `handleLogoUpload` from src/unnamed/part_002 (lines
44-64): for a selected file, clear the error, invoke
`removeLogoBackground` exactly once, wrap its blob (even the fallback) as
a fresh `logo_transparent.png` file and store it as the logo. The second
component counts the `removeLogoBackground` invocations the handler
performs. (The catch branch guards only the File/ObjectURL plumbing —
`removeLogoBackground` itself never throws — and is modelled as not
taken.) -/
def handleLogoUploadStudio (s : AppState) (file : Option Blob)
    (removal : RemovalOutcome) : AppState × Nat :=
  match file with
  | none => (s, 0)
  | some f =>
    let cleanedBlob := removeLogoBackground f removal
    ({ s with error := none, logo := some cleanedBlob }, 1)

/-- Embedding of `handleLogoUpload` from src/App.tsx (lines 40-47): the
selected file is stored as the logo unchanged; this variant never invokes
`removeLogoBackground` (it does not even import it). The second component
counts the `removeLogoBackground` invocations the handler performs. -/
def handleLogoUploadBasic (s : AppState) (file : Option Blob) : AppState × Nat :=
  match file with
  | none => (s, 0)
  | some f => ({ s with logo := some f, error := none }, 0)

/-- One batch run as a session step: `startProcessing` together with the
count of `removeLogoBackground` invocations its body performs — zero, in
both App variants (neither `startProcessing` contains a call to it). -/
def runBatchStep (s : AppState) (env : RunEnv) : RunOutput × Nat :=
  (startProcessing s env, 0)

/-! ## Helper lemmas -/

/-- Structural form of a successful `processImage` run: exactly three draw
calls are recorded — the background at full alpha, the centered watermark
at `watermarkOpacity`, and the corner mark at full alpha. -/
theorem processImage_ok_ops (bg logoImg : Image) (bestCorner : String)
    (config : BrandingConfig) (env : CanvasEnv) (ops : List DrawOp) (blob : Blob)
    (h : processImage bg logoImg bestCorner config env = .ok (ops, blob)) :
    ops = [⟨bg.content, 0, 0, bg.naturalWidth, bg.naturalHeight, 1⟩,
           ⟨logoImg.content,
            (bg.naturalWidth - bg.naturalWidth * config.watermarkScale) / 2,
            (bg.naturalHeight - bg.naturalWidth * config.watermarkScale / 1.1) / 2,
            bg.naturalWidth * config.watermarkScale,
            bg.naturalWidth * config.watermarkScale / 1.1,
            config.watermarkOpacity⟩,
           ⟨logoImg.content,
            (cornerXY bg.naturalWidth bg.naturalHeight (bg.naturalWidth * config.logoScale)
              (bg.naturalWidth * config.logoScale / 1.1) config.logoPadding bestCorner).1,
            (cornerXY bg.naturalWidth bg.naturalHeight (bg.naturalWidth * config.logoScale)
              (bg.naturalWidth * config.logoScale / 1.1) config.logoPadding bestCorner).2,
            bg.naturalWidth * config.logoScale,
            bg.naturalWidth * config.logoScale / 1.1, 1⟩] := by
  unfold processImage at h
  cases hc : env.ctxOk with
  | false => rw [hc] at h; simp at h
  | true =>
    rw [hc] at h
    cases ht : env.toBlob with
    | none =>
      simp only [Bool.true_eq_false, if_false, ht] at h
      exact absurd h (by simp)
    | some b =>
      simp only [Bool.true_eq_false, if_false, ht, Ctx.init, Ctx.drawImage, Ctx.save,
        Ctx.setGlobalAlpha, Ctx.restore, Except.ok.injEq, Prod.mk.injEq] at h
      exact h.1.symm

/-- Case analysis of the corner switch statement. -/
theorem cornerXY_cases (cw ch w hgt p : ℚ) (c : String) :
    (c = "top-left" → cornerXY cw ch w hgt p c = (p, p)) ∧
    (c = "top-right" → cornerXY cw ch w hgt p c = (cw - w - p, p)) ∧
    (c = "bottom-left" → cornerXY cw ch w hgt p c = (p, ch - hgt - p)) ∧
    (c = "bottom-right" → cornerXY cw ch w hgt p c = (cw - w - p, ch - hgt - p)) ∧
    (c ≠ "top-left" → c ≠ "top-right" → c ≠ "bottom-left" → c ≠ "bottom-right" →
      cornerXY cw ch w hgt p c = (cw - w - p, p)) := by
  refine ⟨?_, ?_, ?_, ?_, ?_⟩
  · intro h1; subst h1; rfl
  · intro h1; subst h1; rfl
  · intro h1; subst h1; rfl
  · intro h1; subst h1; rfl
  · intro h1 h2 h3 h4; simp [cornerXY, h1, h2, h3, h4]

/-! ## Claim theorems -/

/-- Claim C8: for every logo input, if the background-removal routine
fails for any reason, `removeLogoBackground` returns the original,
unmodified logo bytes (the function is total — no error escapes it), and
on success it returns the routine's background-free result. -/
theorem removeLogoBackground_fallback :
    ∀ (file resultBlob : Blob) (e : String),
      removeLogoBackground file (.error e) = file ∧
      removeLogoBackground file (.ok resultBlob) = resultBlob := by
  intro file resultBlob e
  exact ⟨rfl, rfl⟩

/-- Claim C5: for every background image, logo, and config, `processImage`
places the corner mark with width = canvasWidth × logoScale and height =
width / 1.1, at (pad, pad) for top-left, (canvasWidth − width − pad, pad)
for top-right, (pad, canvasHeight − height − pad) for bottom-left,
(canvasWidth − width − pad, canvasHeight − height − pad) for bottom-right,
and treats any unrecognized corner value as top-right. -/
theorem processImage_corner_placement (bg logoImg : Image) (bestCorner : String)
    (config : BrandingConfig) (env : CanvasEnv) (ops : List DrawOp) (blob : Blob)
    (h : processImage bg logoImg bestCorner config env = .ok (ops, blob)) :
    ∃ op : DrawOp, ops.getLast? = some op ∧
      op.w = bg.naturalWidth * config.logoScale ∧
      op.h = op.w / 1.1 ∧
      (bestCorner = "top-left" → op.x = config.logoPadding ∧ op.y = config.logoPadding) ∧
      (bestCorner = "top-right" →
        op.x = bg.naturalWidth - op.w - config.logoPadding ∧ op.y = config.logoPadding) ∧
      (bestCorner = "bottom-left" →
        op.x = config.logoPadding ∧ op.y = bg.naturalHeight - op.h - config.logoPadding) ∧
      (bestCorner = "bottom-right" →
        op.x = bg.naturalWidth - op.w - config.logoPadding ∧
        op.y = bg.naturalHeight - op.h - config.logoPadding) ∧
      (bestCorner ≠ "top-left" → bestCorner ≠ "top-right" → bestCorner ≠ "bottom-left" →
        bestCorner ≠ "bottom-right" →
        op.x = bg.naturalWidth - op.w - config.logoPadding ∧ op.y = config.logoPadding) := by
  have hops := processImage_ok_ops bg logoImg bestCorner config env ops blob h
  subst hops
  obtain ⟨h1, h2, h3, h4, h5⟩ := cornerXY_cases bg.naturalWidth bg.naturalHeight
    (bg.naturalWidth * config.logoScale) (bg.naturalWidth * config.logoScale / 1.1)
    config.logoPadding bestCorner
  refine ⟨_, rfl, rfl, rfl, ?_, ?_, ?_, ?_, ?_⟩
  · intro hc; exact ⟨by simp [h1 hc], by simp [h1 hc]⟩
  · intro hc; exact ⟨by simp [h2 hc], by simp [h2 hc]⟩
  · intro hc; exact ⟨by simp [h3 hc], by simp [h3 hc]⟩
  · intro hc; exact ⟨by simp [h4 hc], by simp [h4 hc]⟩
  · intro hd1 hd2 hd3 hd4
    exact ⟨by simp [h5 hd1 hd2 hd3 hd4], by simp [h5 hd1 hd2 hd3 hd4]⟩

/-- Witness for C5: a concrete run on a 100×100 background with logoScale
= 11/50 and padding 5, with the unrecognized corner value "center", lands
at the top-right placement. -/
theorem processImage_corner_placement_witness :
    ∃ op : DrawOp, op.w = (100 : ℚ) * (11 / 50) ∧ op.h = op.w / 1.1 ∧
      op.x = 100 - op.w - 5 ∧ op.y = 5 := by
  obtain ⟨op, _, hw, hh, _, _, _, _, hdef⟩ :=
    processImage_corner_placement ⟨100, 100, "bg"⟩ ⟨10, 10, "logo"⟩ "center"
      ⟨1/2, 11/20, 11/50, 5⟩ ⟨true, some "out"⟩ _ _ rfl
  obtain ⟨hx, hy⟩ := hdef (by decide) (by decide) (by decide) (by decide)
  exact ⟨op, hw, hh, hx, hy⟩

/-- Claim C6: for every background image, logo, and config, `processImage`
draws the watermark with width = canvasWidth × watermarkScale, height =
width / 1.1 (the forced ratio, independent of the logo's native aspect
ratio, which never enters the computation), centered, at opacity exactly
watermarkOpacity, while the subsequently drawn corner mark is rendered at
full opacity 1.0, unaffected by watermarkOpacity. -/
theorem processImage_watermark_spec (bg logoImg : Image) (bestCorner : String)
    (config : BrandingConfig) (env : CanvasEnv) (ops : List DrawOp) (blob : Blob)
    (h : processImage bg logoImg bestCorner config env = .ok (ops, blob)) :
    ∃ wm cm : DrawOp,
      ops = [⟨bg.content, 0, 0, bg.naturalWidth, bg.naturalHeight, 1⟩, wm, cm] ∧
      wm.w = bg.naturalWidth * config.watermarkScale ∧
      wm.h = wm.w / 1.1 ∧
      wm.x = (bg.naturalWidth - wm.w) / 2 ∧
      wm.y = (bg.naturalHeight - wm.h) / 2 ∧
      wm.alpha = config.watermarkOpacity ∧
      cm.alpha = 1 := by
  have hops := processImage_ok_ops bg logoImg bestCorner config env ops blob h
  subst hops
  exact ⟨_, _, rfl, rfl, rfl, rfl, rfl, rfl, rfl⟩

/-- Witness for C6: on a 100×100 background with watermarkScale = 11/20
and watermarkOpacity = 1/2, the watermark is a 55×50 rectangle at
(45/2, 25) drawn with alpha 1/2, and the corner mark has alpha 1. -/
theorem processImage_watermark_spec_witness :
    ∃ wm cm : DrawOp, wm.w = (55 : ℚ) ∧ wm.h = 50 ∧ wm.x = 45/2 ∧ wm.y = 25 ∧
      wm.alpha = 1/2 ∧ cm.alpha = 1 := by
  obtain ⟨wm, cm, _, hw, hh, hx, hy, ha, hca⟩ :=
    processImage_watermark_spec ⟨100, 100, "bg"⟩ ⟨10, 10, "logo"⟩ "top-left"
      ⟨1/2, 11/20, 11/50, 5⟩ ⟨true, some "out"⟩ _ _ rfl
  refine ⟨wm, cm, ?_, ?_, ?_, ?_, ha, hca⟩
  · rw [hw]; norm_num
  · rw [hh, hw]; norm_num
  · rw [hx, hw]; norm_num
  · rw [hy, hh, hw]; norm_num

/-- Claim C10: `processImage` performs no validation of the config's
numeric fields — with any rational values (watermarkScale or logoScale
above 1, negative padding) it succeeds whenever a 2D context is acquired
and the export yields bytes, and its only error outcomes are the missing
2D context and the empty export. -/
theorem processImage_no_validation (bg logoImg : Image) (bestCorner : String)
    (config : BrandingConfig) (env : CanvasEnv) :
    (env.ctxOk = true → ∀ b, env.toBlob = some b →
      ∃ ops, processImage bg logoImg bestCorner config env = .ok (ops, b)) ∧
    (∀ e, processImage bg logoImg bestCorner config env = .error e →
      (env.ctxOk = false ∧ e = "Could not initialize 2D context") ∨
      (env.ctxOk = true ∧ env.toBlob = none ∧ e = "Failed to export canvas to blob")) := by
  obtain ⟨co, tb⟩ := env
  constructor
  · intro hc b hb
    simp only at hc hb
    subst hc; subst hb
    exact ⟨_, rfl⟩
  · intro e he
    cases co with
    | false =>
      left
      refine ⟨rfl, ?_⟩
      simp [processImage] at he
      exact he.symm
    | true =>
      right
      cases htb : tb with
      | none =>
        refine ⟨rfl, rfl, ?_⟩
        subst htb
        simp [processImage] at he
        exact he.symm
      | some b =>
        subst htb
        simp [processImage] at he

/-- Witness for C10: with watermarkScale = 3/2 (above 1) and logoPadding
= −5 (negative), a run with a live context and a non-empty export
succeeds. -/
theorem processImage_no_validation_witness :
    ∃ ops, processImage ⟨100, 100, "bg"⟩ ⟨10, 10, "logo"⟩ "top-left"
      ⟨1/2, 3/2, 11/50, -5⟩ ⟨true, some "out"⟩ = .ok (ops, "out") :=
  (processImage_no_validation ⟨100, 100, "bg"⟩ ⟨10, 10, "logo"⟩ "top-left"
    ⟨1/2, 3/2, 11/50, -5⟩ ⟨true, some "out"⟩).1 rfl "out" rfl

/-- Containment of the corner switch's placement, for the four recognized
corner values, under the BrandingConfig domain constraint 0 ≤ padding. -/
theorem cornerXY_in_bounds (cw ch w hgt p : ℚ) (c : String)
    (hpad : 0 ≤ p) (hw : w + p ≤ cw) (hh : hgt + p ≤ ch)
    (hc : c = "top-left" ∨ c = "top-right" ∨ c = "bottom-left" ∨ c = "bottom-right") :
    0 ≤ (cornerXY cw ch w hgt p c).1 ∧ 0 ≤ (cornerXY cw ch w hgt p c).2 ∧
    (cornerXY cw ch w hgt p c).1 + w ≤ cw ∧ (cornerXY cw ch w hgt p c).2 + hgt ≤ ch := by
  rcases hc with hc | hc | hc | hc <;> subst hc
  · rw [show cornerXY cw ch w hgt p "top-left" = (p, p) from rfl]
    exact ⟨hpad, hpad, (by linarith : p + w ≤ cw), (by linarith : p + hgt ≤ ch)⟩
  · rw [show cornerXY cw ch w hgt p "top-right" = (cw - w - p, p) from rfl]
    exact ⟨(by linarith : (0 : ℚ) ≤ cw - w - p), hpad,
      (by linarith : cw - w - p + w ≤ cw), (by linarith : p + hgt ≤ ch)⟩
  · rw [show cornerXY cw ch w hgt p "bottom-left" = (p, ch - hgt - p) from rfl]
    exact ⟨hpad, (by linarith : (0 : ℚ) ≤ ch - hgt - p),
      (by linarith : p + w ≤ cw), (by linarith : ch - hgt - p + hgt ≤ ch)⟩
  · rw [show cornerXY cw ch w hgt p "bottom-right" = (cw - w - p, ch - hgt - p) from rfl]
    exact ⟨(by linarith : (0 : ℚ) ≤ cw - w - p), (by linarith : (0 : ℚ) ≤ ch - hgt - p),
      (by linarith : cw - w - p + w ≤ cw), (by linarith : ch - hgt - p + hgt ≤ ch)⟩

/-- Claim C9 (under the BrandingConfig domain constraint logoPadding ≥ 0):
for each of the four corner values, whenever the corner-mark width plus
padding fits the canvas width and its height plus padding fits the canvas
height, the corner mark's bounding box computed by `processImage` lies
fully within [0, canvasWidth] × [0, canvasHeight]. -/
theorem cornerMark_in_bounds (bg logoImg : Image) (bestCorner : String)
    (config : BrandingConfig) (env : CanvasEnv) (ops : List DrawOp) (blob : Blob) (op : DrawOp)
    (hrun : processImage bg logoImg bestCorner config env = .ok (ops, blob))
    (hop : ops.getLast? = some op)
    (hcorner : bestCorner = "top-left" ∨ bestCorner = "top-right" ∨
      bestCorner = "bottom-left" ∨ bestCorner = "bottom-right")
    (hpad : 0 ≤ config.logoPadding)
    (hw : bg.naturalWidth * config.logoScale + config.logoPadding ≤ bg.naturalWidth)
    (hh : bg.naturalWidth * config.logoScale / 1.1 + config.logoPadding ≤ bg.naturalHeight) :
    0 ≤ op.x ∧ 0 ≤ op.y ∧ op.x + op.w ≤ bg.naturalWidth ∧ op.y + op.h ≤ bg.naturalHeight := by
  have hops := processImage_ok_ops bg logoImg bestCorner config env ops blob hrun
  have hlast : ops.getLast? = some ⟨logoImg.content,
      (cornerXY bg.naturalWidth bg.naturalHeight (bg.naturalWidth * config.logoScale)
        (bg.naturalWidth * config.logoScale / 1.1) config.logoPadding bestCorner).1,
      (cornerXY bg.naturalWidth bg.naturalHeight (bg.naturalWidth * config.logoScale)
        (bg.naturalWidth * config.logoScale / 1.1) config.logoPadding bestCorner).2,
      bg.naturalWidth * config.logoScale, bg.naturalWidth * config.logoScale / 1.1, 1⟩ := by
    rw [hops, List.getLast?_cons_cons, List.getLast?_cons_cons]
    rfl
  rw [hlast] at hop
  obtain rfl := (Option.some.inj hop).symm
  have hb := cornerXY_in_bounds bg.naturalWidth bg.naturalHeight
    (bg.naturalWidth * config.logoScale) (bg.naturalWidth * config.logoScale / 1.1)
    config.logoPadding bestCorner hpad hw hh hcorner
  exact ⟨hb.1, hb.2.1, hb.2.2.1, hb.2.2.2⟩

/-- Witness for C9: a 100×100 background, logoScale 11/50 (mark 22 wide,
20 tall), padding 5, bottom-right corner: the box (73, 75) to (95, 95)
lies inside the canvas. -/
theorem cornerMark_in_bounds_witness :
    (0 : ℚ) ≤ 73 ∧ (0 : ℚ) ≤ 75 ∧ (73 : ℚ) + 22 ≤ 100 ∧ (75 : ℚ) + 20 ≤ 100 := by
  have hrun : processImage ⟨100, 100, "bg"⟩ ⟨10, 10, "logo"⟩ "bottom-right"
      ⟨1/2, 11/20, 11/50, 5⟩ ⟨true, some "out"⟩ =
      .ok ([⟨"bg", 0, 0, 100, 100, 1⟩, ⟨"logo", 45/2, 25, 55, 50, 1/2⟩,
            ⟨"logo", 73, 75, 22, 20, 1⟩], "out") := by
    simp only [processImage, Ctx.init, Ctx.drawImage, Ctx.save, Ctx.setGlobalAlpha, Ctx.restore,
      cornerXY]
    norm_num
    exact ⟨rfl, rfl⟩
  exact cornerMark_in_bounds ⟨100, 100, "bg"⟩ ⟨10, 10, "logo"⟩ "bottom-right"
    ⟨1/2, 11/20, 11/50, 5⟩ ⟨true, some "out"⟩ _ "out" ⟨"logo", 73, 75, 22, 20, 1⟩ hrun
    rfl (Or.inr (Or.inr (Or.inr rfl))) (by norm_num) (by norm_num) (by norm_num)

/-- Claim C1 counterexample: the claim says `findBestCorner` resolves
every failure internally and never propagates an error, but in both
source variants the `generateContent` await sits outside the try/catch,
so a rejected service call propagates to the caller — and the part_001
variant additionally throws when the API key is absent. -/
theorem findBestCorner_absorbs_all_cex :
    findBestCornerV0 (.thrown "Service unavailable") = .error "Service unavailable" ∧
    findBestCornerV1 (some "key") (.thrown "Service unavailable")
      = .error "Service unavailable" ∧
    findBestCornerV1 none (.thrown "Service unavailable")
      = .error "API Key is missing. Please ensure it is configured." := by
  refine ⟨rfl, ?_, rfl⟩
  rfl

/-- Claim C1 amended: once the Vision-Service call resolves, every
failure to obtain a valid parsed corner (undefined/empty text, malformed
payload, out-of-enum value) is absorbed and a corner is returned; but an
error thrown by the service call itself propagates to the caller, as
does the part_001 variant's missing-API-key error. -/
theorem findBestCorner_fallback_amended :
    (∀ text parsed, ∃ c, findBestCornerV0 (.returned text parsed) = .ok c) ∧
    (∀ e, findBestCornerV0 (.thrown e) = .error e) ∧
    (∀ k, k ≠ "" → ∀ text parsed, ∃ c,
      findBestCornerV1 (some k) (.returned text parsed) = .ok c) ∧
    (∀ k e, k ≠ "" → findBestCornerV1 (some k) (.thrown e) = .error e) ∧
    (∀ r, findBestCornerV1 none r
      = .error "API Key is missing. Please ensure it is configured.") := by
  refine ⟨?_, ?_, ?_, ?_, ?_⟩
  · intro text parsed
    cases text with
    | none => exact ⟨"top-right", rfl⟩
    | some t =>
      by_cases ht : t = ""
      · subst ht; exact ⟨"top-right", rfl⟩
      · cases parsed with
        | error e => exact ⟨"top-right", by simp [findBestCornerV0, ht]⟩
        | ok corner =>
          cases corner with
          | none => exact ⟨"top-right", by simp [findBestCornerV0, ht]⟩
          | some c =>
            by_cases hc : c = "top-left" ∨ c = "top-right"
            · exact ⟨c, by simp [findBestCornerV0, ht, hc]⟩
            · exact ⟨"top-right", by simp [findBestCornerV0, ht, hc]⟩
  · intro e; rfl
  · intro k hk text parsed
    cases text with
    | none => exact ⟨some "top-right", by simp [findBestCornerV1, hk]⟩
    | some t =>
      cases parsed with
      | error e => exact ⟨some "top-right", by simp [findBestCornerV1, hk]⟩
      | ok corner => exact ⟨corner, by simp [findBestCornerV1, hk]⟩
  · intro k e hk; simp [findBestCornerV1, hk]
  · intro r; rfl

/-- Witness for the amended C1: a resolved call is absorbed and a thrown
call propagates, at concrete inputs, in both variants. -/
theorem findBestCorner_fallback_amended_witness :
    findBestCornerV0 (.thrown "boom") = .error "boom" ∧
    findBestCornerV1 (some "key") (.thrown "boom") = .error "boom" ∧
    (∃ c, findBestCornerV0 (.returned (some "garbage") (.error "SyntaxError")) = .ok c) :=
  ⟨findBestCorner_fallback_amended.2.1 "boom",
   findBestCorner_fallback_amended.2.2.2.1 "key" "boom" (by decide),
   findBestCorner_fallback_amended.1 (some "garbage") (.error "SyntaxError")⟩

/-- Claim C4 counterexample: in the part_001 variant, a response that
parses to a corner value outside the two-element set is returned as-is
— `data.corner as Corner` performs no check — not replaced by top-right. -/
theorem findBestCorner_range_cex :
    findBestCornerV1 (some "key") (.returned (some "raw") (.ok (some "bottom-left")))
      = .ok (some "bottom-left") ∧
    ("bottom-left" : String) ≠ "top-left" ∧ ("bottom-left" : String) ≠ "top-right" := by
  refine ⟨?_, by decide, by decide⟩
  rfl

/-- Claim C4 amended: the part_000 variant's client-side check restricts
every returned corner to {top-left, top-right} (an out-of-enum parsed
value yields top-right); the part_001 variant returns the parsed corner
field unchecked, relying only on the request's response-schema enum. -/
theorem findBestCorner_range_amended :
    (∀ r c, findBestCornerV0 r = .ok c → c = "top-left" ∨ c = "top-right") ∧
    (∀ k, k ≠ "" → ∀ t corner,
      findBestCornerV1 (some k) (.returned (some t) (.ok corner)) = .ok corner) := by
  constructor
  · intro r c h
    cases r with
    | thrown e => exact absurd h (by simp [findBestCornerV0])
    | returned text parsed =>
      cases text with
      | none => simp [findBestCornerV0] at h; exact Or.inr h.symm
      | some t =>
        by_cases ht : t = ""
        · subst ht; simp [findBestCornerV0] at h; exact Or.inr h.symm
        · cases parsed with
          | error e => simp [findBestCornerV0, ht] at h; exact Or.inr h.symm
          | ok corner =>
            cases corner with
            | none => simp [findBestCornerV0, ht] at h; exact Or.inr h.symm
            | some cv =>
              by_cases hc : cv = "top-left" ∨ cv = "top-right"
              · simp [findBestCornerV0, ht, hc] at h; subst h; exact hc
              · simp [findBestCornerV0, ht, hc] at h; exact Or.inr h.symm
  · intro k hk t corner
    simp [findBestCornerV1, hk]

/-- Witness for the amended C4: the part_000 variant's result lies in the
set at a concrete input; the part_001 variant passes a concrete
out-of-enum value through. -/
theorem findBestCorner_range_amended_witness :
    (("top-right" : String) = "top-left" ∨ ("top-right" : String) = "top-right") ∧
    findBestCornerV1 (some "key") (.returned (some "raw") (.ok (some "bottom-right")))
      = .ok (some "bottom-right") :=
  ⟨findBestCorner_range_amended.1 (.returned none (.ok none)) "top-right" rfl,
   findBestCorner_range_amended.2 "key" (by decide) "raw" (some "bottom-right")⟩

/-- Every snapshot the item loop publishes carries total = n, the running
flag, and a current of at least i + 1. -/
theorem runItems_trace_mem (env : RunEnv) (n : Nat) :
    ∀ k i p, p ∈ (runItems env n i k).1 →
      p.total = n ∧ p.isProcessing = true ∧ i + 1 ≤ p.current := by
  intro k
  induction k with
  | zero => intro i p hp; simp [runItems] at hp
  | succ k ih =>
    intro i p hp
    rw [runItems] at hp
    cases hres : env.itemResult i with
    | ok b =>
      rw [hres] at hp
      simp only [List.mem_cons] at hp
      rcases hp with rfl | hp
      · exact ⟨rfl, rfl, Nat.le_refl _⟩
      · have h2 := ih (i + 1) p hp
        exact ⟨h2.1, h2.2.1, by omega⟩
    | error e =>
      rw [hres] at hp
      simp only [List.mem_cons, List.not_mem_nil, or_false] at hp
      subst hp
      exact ⟨rfl, rfl, Nat.le_refl _⟩

/-- The currents of the loop's published snapshots are non-decreasing. -/
theorem runItems_trace_chain (env : RunEnv) (n : Nat) :
    ∀ k i, List.Chain' (fun a b => a.current ≤ b.current) (runItems env n i k).1 := by
  intro k
  induction k with
  | zero => intro i; simp [runItems]
  | succ k ih =>
    intro i
    rw [runItems]
    cases hres : env.itemResult i with
    | ok b =>
      refine List.chain'_cons'.2 ⟨?_, ih (i + 1)⟩
      intro y hy
      have hmem := runItems_trace_mem env n k (i + 1) y (List.mem_of_mem_head? hy)
      show i + 1 ≤ y.current
      omega
    | error e => simp

/-- When the loop finishes without an error, the last published snapshot
(seeded with `p0`) shows item i + k of n. -/
theorem runItems_complete_getLast (env : RunEnv) (n : Nat) :
    ∀ k i (p0 : ProcessingState), (runItems env n i k).2.2 = none →
      (p0 :: (runItems env n i k).1).getLast (List.cons_ne_nil _ _) =
        if k = 0 then p0 else ⟨true, n, i + k, statusMsg (i + k) n⟩ := by
  intro k
  induction k with
  | zero => intro i p0 _; simp [runItems]
  | succ k ih =>
    intro i p0 herr
    rw [runItems] at herr ⊢
    cases hres : env.itemResult i with
    | ok b =>
      rw [hres] at herr
      dsimp only at herr ⊢
      rw [List.getLast_cons (l := (⟨true, n, i + 1, statusMsg (i + 1) n⟩ : ProcessingState) ::
        (runItems env n (i + 1) k).1) (List.cons_ne_nil _ _)]
      have hih := ih (i + 1) (⟨true, n, i + 1, statusMsg (i + 1) n⟩ : ProcessingState) herr
      rw [hih]
      by_cases hk : k = 0
      · subst hk; simp
      · rw [if_neg hk, if_neg (Nat.succ_ne_zero k)]
        rw [show i + 1 + k = i + (k + 1) by omega]
    | error e =>
      rw [hres] at herr
      simp at herr

/-- Aborting on the first failing item: if item i + j is the first to
fail (counting from the loop's start index i), the loop publishes exactly
j + 1 snapshots, adds exactly j zip entries, and reports the error. -/
theorem runItems_first_error (env : RunEnv) (n : Nat) :
    ∀ j k i e, j < k →
      env.itemResult (i + j) = .error e →
      (∀ m, m < j → ∃ b, env.itemResult (i + m) = .ok b) →
      (runItems env n i k).2.2 = some e ∧
      (runItems env n i k).1.length = j + 1 ∧
      (runItems env n i k).2.1.length = j := by
  intro j
  induction j with
  | zero =>
    intro k i e hjk hfail _
    obtain ⟨k', rfl⟩ : ∃ k', k = k' + 1 := ⟨k - 1, by omega⟩
    rw [runItems]
    rw [show i + 0 = i from rfl] at hfail
    rw [hfail]
    exact ⟨rfl, rfl, rfl⟩
  | succ j ih =>
    intro k i e hjk hfail hpre
    obtain ⟨k', rfl⟩ : ∃ k', k = k' + 1 := ⟨k - 1, by omega⟩
    obtain ⟨b, hb⟩ := hpre 0 (Nat.succ_pos j)
    rw [show i + 0 = i from rfl] at hb
    rw [runItems, hb]
    have hrec := ih k' (i + 1) e (by omega)
      (by rw [show i + 1 + j = i + (j + 1) by omega]; exact hfail)
      (by
        intro m hm
        obtain ⟨b2, hb2⟩ := hpre (m + 1) (by omega)
        exact ⟨b2, by rw [show i + 1 + m = i + (m + 1) by omega]; exact hb2⟩)
    simp only [List.length_cons]
    exact ⟨hrec.1, by rw [hrec.2.1], by rw [hrec.2.2]⟩

/-- Claim C2 counterexample: `processing.current` is set to i + 1 before
item i is processed (it counts items started, not completed), so a batch
of one product whose only item fails ends in the failed state — error
recorded, no archive, not running — while current = total = 1. This
refutes "completedCount = totalCount only if the run ends Completed". -/
theorem startProcessing_progress_cex :
    ∃ s' : AppState,
      (startProcessing ⟨some "L", ["p1"], ⟨false, 0, 0, ""⟩, none, none⟩
          ⟨.ok (), fun _ => .error "boom", .ok "zip"⟩).result = .ok s' ∧
      s'.processing.current = s'.processing.total ∧
      s'.zipBlob = none ∧ s'.error = some "boom" ∧ s'.processing.isProcessing = false :=
  ⟨⟨some "L", ["p1"], ⟨false, 1, 1, "Processing image 1 of 1..."⟩, none, some "boom"⟩,
    rfl, rfl, rfl, rfl, rfl⟩

/-- Claim C2 amended: during every run the published `current` values are
non-decreasing, and a run that ends Completed (archive stored) shows
current = totalCount; but the converse direction of the claimed "iff"
fails — see the counterexample — because `current` counts items started. -/
theorem startProcessing_progress_amended (s : AppState) (env : RunEnv) :
    List.Chain' (fun a b => a.current ≤ b.current) (startProcessing s env).trace ∧
    (s.logo ≠ none → s.products ≠ [] → ∀ s' : AppState,
      (startProcessing s env).result = .ok s' → s'.zipBlob.isSome = true →
      s'.processing.current = s.products.length ∧
      s'.processing.total = s.products.length ∧
      s'.processing.isProcessing = false) := by
  by_cases hguard : s.logo = none ∨ s.products = []
  · rw [startProcessing, if_pos hguard]
    constructor
    · simp
    · intro hlogo hprod s' _ _
      rcases hguard with h | h
      · exact absurd h hlogo
      · exact absurd h hprod
  · rw [startProcessing, if_neg hguard]
    cases hdec : env.logoDecode with
    | error e =>
      constructor
      · simp
      · intro _ _ s' hres
        dsimp only at hres
        exact absurd hres (by simp)
    | ok u =>
      cases u
      dsimp only
      have hchain0 : List.Chain'
          (fun a b : ProcessingState => a.current ≤ b.current)
          ((⟨true, s.products.length, 0, "Initializing batch..."⟩ : ProcessingState) ::
            (runItems env s.products.length 0 s.products.length).1) := by
        refine List.chain'_cons'.2 ⟨?_, runItems_trace_chain env _ _ _⟩
        intro y hy
        have hm := runItems_trace_mem env s.products.length s.products.length 0 y
          (List.mem_of_mem_head? hy)
        exact Nat.zero_le _
      cases herr : (runItems env s.products.length 0 s.products.length).2.2 with
      | some e =>
        dsimp only
        refine ⟨hchain0, ?_⟩
        intro hlogo hprod s' hres hzip
        obtain rfl : _ = s' := Except.ok.inj hres
        simp at hzip
      | none =>
        have hn : s.products.length ≠ 0 := by
          intro h0
          exact (not_or.mp hguard).2 (List.length_eq_zero.mp h0)
        have hlast := runItems_complete_getLast env s.products.length s.products.length 0
          (⟨true, s.products.length, 0, "Initializing batch..."⟩ : ProcessingState) herr
        rw [if_neg hn] at hlast
        have hbridge : ∀ x ∈ ((⟨true, s.products.length, 0, "Initializing batch..."⟩ :
            ProcessingState) ::
            (runItems env s.products.length 0 s.products.length).1).getLast?,
            x.current = s.products.length := by
          intro x hx
          rw [List.getLast?_eq_getLast _ (List.cons_ne_nil _ _), Option.mem_some_iff] at hx
          rw [← hx, hlast]
          simp
        cases hzipr : env.zipResult with
        | ok finalZip =>
          dsimp only
          constructor
          · rw [List.chain'_append]
            refine ⟨hchain0, ?_, ?_⟩
            · simp
            · intro x hx y hy
              simp only [List.head?_cons, Option.mem_some_iff] at hy
              rw [hbridge x hx, ← hy, hlast]
              simp
          · intro hlogo hprod s' hres hzip
            obtain rfl : _ = s' := Except.ok.inj hres
            refine ⟨?_, ?_, rfl⟩
            · dsimp only
              rw [hlast]
              simp
            · dsimp only
              rw [hlast]
        | error e =>
          dsimp only
          constructor
          · rw [List.chain'_append]
            refine ⟨hchain0, by simp, ?_⟩
            intro x hx y hy
            simp only [List.head?_cons, Option.mem_some_iff] at hy
            rw [hbridge x hx, ← hy, hlast]
            simp
          · intro hlogo hprod s' hres hzip
            obtain rfl : _ = s' := Except.ok.inj hres
            simp at hzip

/-- Witness for the amended C2: a two-item batch that completes shows
current = total = 2 in its terminal state (and its trace is monotone,
being covered by the same theorem). -/
theorem startProcessing_progress_amended_witness :
    ∃ s' : AppState,
      (startProcessing ⟨some "L", ["p1", "p2"], ⟨false, 0, 0, ""⟩, none, none⟩
          ⟨.ok (), fun _ => .ok "b", .ok "zip"⟩).result = .ok s' ∧
      s'.processing.current = 2 ∧ s'.processing.total = 2 ∧
      s'.processing.isProcessing = false := by
  obtain ⟨hchain, hcomp⟩ := startProcessing_progress_amended
    ⟨some "L", ["p1", "p2"], ⟨false, 0, 0, ""⟩, none, none⟩
    ⟨.ok (), fun _ => .ok "b", .ok "zip"⟩
  exact ⟨⟨some "L", ["p1", "p2"], ⟨false, 2, 2, "Completed Successfully"⟩, some "zip", none⟩,
    rfl, hcomp (by simp) (by simp) _ rfl rfl⟩

/-- Claim C7: a non-absorbed per-item failure (product decode, compositor
context/encode — any error reaching the loop's catch) at the first
failing index j aborts the remaining items (exactly j + 2 snapshots are
ever published: the initial one plus one per started item, and no
finalizing one), ends the run with the failure reason recorded and the
running flag cleared, and exposes no archive payload — `zipBlob` stays
`none` even though j entries from earlier successful items had been added
to the internal zip object. -/
theorem startProcessing_abort_on_failure (s : AppState) (env : RunEnv) (l : Blob)
    (hlogo : s.logo = some l) (hprod : s.products ≠ [])
    (hdec : env.logoDecode = .ok ())
    (j : Nat) (e : String) (hj : j < s.products.length)
    (hfail : env.itemResult j = .error e)
    (hpre : ∀ m, m < j → ∃ b, env.itemResult m = .ok b) :
    ∃ s' : AppState,
      (startProcessing s env).result = .ok s' ∧
      s'.error = some e ∧ s'.zipBlob = none ∧ s'.processing.isProcessing = false ∧
      (startProcessing s env).trace.length = j + 2 ∧
      (startProcessing s env).zipFiles.length = j := by
  have hguard : ¬(s.logo = none ∨ s.products = []) := by
    simp [hlogo, hprod]
  have hre := runItems_first_error env s.products.length j s.products.length 0 e hj
    (by simpa using hfail)
    (by intro m hm; simpa using hpre m hm)
  rw [startProcessing, if_neg hguard, hdec]
  dsimp only
  rw [hre.1]
  dsimp only
  refine ⟨_, rfl, rfl, rfl, rfl, ?_, ?_⟩
  · simp [hre.2.1]
  · exact hre.2.2

/-- Witness for C7: three products, item 1 (0-based) fails compositing;
the run ends failed with reason "render", no archive, three snapshots
(initial plus items 0 and 1), and one internal zip entry from item 0. -/
theorem startProcessing_abort_on_failure_witness :
    ∃ s' : AppState,
      (startProcessing ⟨some "L", ["p1", "p2", "p3"], ⟨false, 0, 0, ""⟩, none, none⟩
          ⟨.ok (), fun i => if i = 0 then .ok "b1" else
            if i = 1 then .error "render" else .ok "b3", .ok "zip"⟩).result = .ok s' ∧
      s'.error = some "render" ∧ s'.zipBlob = none ∧ s'.processing.isProcessing = false ∧
      (startProcessing ⟨some "L", ["p1", "p2", "p3"], ⟨false, 0, 0, ""⟩, none, none⟩
          ⟨.ok (), fun i => if i = 0 then .ok "b1" else
            if i = 1 then .error "render" else .ok "b3", .ok "zip"⟩).trace.length = 3 ∧
      (startProcessing ⟨some "L", ["p1", "p2", "p3"], ⟨false, 0, 0, ""⟩, none, none⟩
          ⟨.ok (), fun i => if i = 0 then .ok "b1" else
            if i = 1 then .error "render" else .ok "b3", .ok "zip"⟩).zipFiles.length = 1 :=
  startProcessing_abort_on_failure _ _ "L" rfl (by simp) rfl 1 "render" (by simp) rfl
    (by intro m hm; have hm0 : m = 0 := by omega
        subst hm0; exact ⟨"b1", rfl⟩)

/-- Claim C3 counterexample: background cleaning is tied to the logo
UPLOAD, not to the batch. In the part_002 variant a batch run invokes
`removeLogoBackground` zero times (the single invocation happened at
upload); in the src/App.tsx variant even the upload performs zero
invocations and the batch composites the raw uploaded logo. -/
theorem cleanLogo_once_per_batch_cex :
    (handleLogoUploadStudio ⟨none, ["p1"], ⟨false, 0, 0, ""⟩, none, none⟩
        (some "rawLogo") (.ok "cleaned")).2 = 1 ∧
    (runBatchStep (handleLogoUploadStudio ⟨none, ["p1"], ⟨false, 0, 0, ""⟩, none, none⟩
        (some "rawLogo") (.ok "cleaned")).1 ⟨.ok (), fun _ => .ok "b", .ok "zip"⟩).2 = 0 ∧
    (handleLogoUploadBasic ⟨none, ["p1"], ⟨false, 0, 0, ""⟩, none, none⟩ (some "rawLogo")).2
      = 0 ∧
    (startProcessing (handleLogoUploadBasic ⟨none, ["p1"], ⟨false, 0, 0, ""⟩, none, none⟩
        (some "rawLogo")).1 ⟨.ok (), fun _ => .ok "b", .ok "zip"⟩).logoUsed = some "rawLogo" :=
  ⟨rfl, rfl, rfl, rfl⟩

/-- Claim C3 amended: in the part_002 variant, `removeLogoBackground`
runs exactly once per logo UPLOAD, before any batch, and every subsequent
batch run performs no cleaning and composites with the stored cleaned
logo; in the src/App.tsx variant no cleaning is ever invoked and batches
composite with the raw uploaded logo. -/
theorem cleanLogo_once_per_upload_amended (s : AppState) (f : Blob)
    (removal : RemovalOutcome) (env : RunEnv) :
    (handleLogoUploadStudio s (some f) removal).2 = 1 ∧
    (handleLogoUploadStudio s (some f) removal).1.logo
      = some (removeLogoBackground f removal) ∧
    (runBatchStep (handleLogoUploadStudio s (some f) removal).1 env).2 = 0 ∧
    (s.products ≠ [] → env.logoDecode = .ok () →
      (runBatchStep (handleLogoUploadStudio s (some f) removal).1 env).1.logoUsed
        = some (removeLogoBackground f removal)) ∧
    (∀ s2 f2, (handleLogoUploadBasic s2 (some f2)).2 = 0 ∧
      (handleLogoUploadBasic s2 (some f2)).1.logo = some f2) := by
  refine ⟨rfl, rfl, rfl, ?_, fun s2 f2 => ⟨rfl, rfl⟩⟩
  intro hprod hdec
  show (startProcessing (handleLogoUploadStudio s (some f) removal).1 env).logoUsed = _
  have hguard : ¬((handleLogoUploadStudio s (some f) removal).1.logo = none ∨
      (handleLogoUploadStudio s (some f) removal).1.products = []) := by
    simp [handleLogoUploadStudio, hprod]
  rw [startProcessing, if_neg hguard, hdec]
  dsimp only
  cases herr : (runItems env (handleLogoUploadStudio s (some f) removal).1.products.length 0
      (handleLogoUploadStudio s (some f) removal).1.products.length).2.2 with
  | some e => rfl
  | none =>
    cases hzipr : env.zipResult with
    | ok finalZip => rfl
    | error e => rfl

/-- Witness for the amended C3: concrete upload (whose removal fails, so
the stored logo is the original bytes) followed by a batch run that
performs zero cleanings and composites that stored logo. -/
theorem cleanLogo_once_per_upload_witness :
    (handleLogoUploadStudio ⟨none, ["p1"], ⟨false, 0, 0, ""⟩, none, none⟩
        (some "raw") (.error "removal failed")).2 = 1 ∧
    (runBatchStep (handleLogoUploadStudio ⟨none, ["p1"], ⟨false, 0, 0, ""⟩, none, none⟩
        (some "raw") (.error "removal failed")).1 ⟨.ok (), fun _ => .ok "b", .ok "zip"⟩).1.logoUsed
      = some "raw" := by
  obtain ⟨h1, h2, h3, h4, h5⟩ := cleanLogo_once_per_upload_amended
    ⟨none, ["p1"], ⟨false, 0, 0, ""⟩, none, none⟩ "raw" (.error "removal failed")
    ⟨.ok (), fun _ => .ok "b", .ok "zip"⟩
  exact ⟨h1, h4 (by simp) rfl⟩

end Branding
